import Mathlib

/-!
Shallow embedding of the natural-language recurrence/date extraction and
formatting core of the FlowTask repository.

Source of truth:
* `src/components/TaskModal.tsx`, `handleSubmit` lines 80-150 (the extractor:
  recurrence pattern table, time-of-day extraction, residual-text cleanup,
  fall-through to the chrono natural-language date parser) and
  `expandNumberWords` lines 325-341 (preview path).
* `src/lib/formatRecurrence.ts` (the formatter: `formatTimeDisplay`,
  `extractDayOfWeek`, `isBiweekly`, `getOrdinalSuffix`, `formatRecurrence`).
* `supabase/functions/quick-add/index.ts` lines 139-204 (item assembly from
  client-parsed recurrence / reminder date).

JavaScript semantics are modelled explicitly over `List Char`:
* `\b` word boundaries with `\w = [A-Za-z0-9_]`,
* case-insensitive literal matching restricted to ASCII (all pattern
  alphabets in the source are ASCII),
* `String.prototype.match` = leftmost match, alternatives tried left to
  right with backtracking, greedy quantifiers,
* `String.prototype.replace` with a string argument = case-sensitive
  removal of the first literal occurrence,
* `trim` = strip ASCII whitespace from both ends,
* truthiness of optional strings (`undefined` and `""` are falsy).

The external chrono parser (`customChrono.parse`, not part of this
repository) is an oracle parameter of `extract`; everything the claims need
about it is which string the extractor hands to it and what the extractor
does with its answer.
-/

namespace FlowTask

/-- ASCII JavaScript word character, the `\w` class: letters, digits, underscore. -/
def jsWordChar (c : Char) : Bool :=
  (('a' ≤ c && c ≤ 'z') || ('A' ≤ c && c ≤ 'Z') || ('0' ≤ c && c ≤ '9') || c = '_')

/-- JavaScript whitespace (`\s`), restricted to the ASCII range. -/
def jsSpaceChar (c : Char) : Bool :=
  (c = ' ' || c = '\t' || c = '\n' || c = '\r' || c = '\x0b' || c = '\x0c')

/-- ASCII digit test. -/
def jsDigit (c : Char) : Bool := ('0' ≤ c && c ≤ '9')

/-- ASCII lower-casing, as used for case-insensitive regex matching. -/
def jsLower (c : Char) : Char :=
  if 'A' ≤ c && c ≤ 'Z' then Char.ofNat (c.toNat + 32) else c

/-- ASCII upper-casing, the effect of `toUpperCase` on one ASCII character. -/
def jsUpper (c : Char) : Char :=
  if 'a' ≤ c && c ≤ 'z' then Char.ofNat (c.toNat - 32) else c

/-- Numeric value of an ASCII digit. -/
def digitVal (c : Char) : Nat := c.toNat - '0'.toNat

/-- Value of a decimal digit string (as produced by `parseInt` on digit-only input). -/
def digitsVal (l : List Char) : Nat := l.foldl (fun a c => a * 10 + digitVal c) 0

/-- Length of the maximal run of characters satisfying `p` at the head of the list. -/
def countWhile (p : Char → Bool) : List Char → Nat
  | [] => 0
  | c :: r => if p c then countWhile p r + 1 else 0

/-- Case-insensitive (ASCII) test that `w` begins `s`. -/
def ciStarts : List Char → List Char → Bool
  | [], _ => true
  | _ :: _, [] => false
  | w :: ws, c :: cs => (jsLower w = jsLower c) && ciStarts ws cs

/-- Case-sensitive test that `w` begins `s`. -/
def litStarts : List Char → List Char → Bool
  | [], _ => true
  | _ :: _, [] => false
  | w :: ws, c :: cs => (w = c) && litStarts ws cs

/-- Substring test: `containsSub s m` holds when `m` occurs as a contiguous substring of `s`. -/
def containsSub (s m : List Char) : Bool :=
  match s with
  | [] => m.isEmpty
  | _ :: r => litStarts m s || containsSub r m

/-- JavaScript `String.prototype.replace` with a plain-string pattern:
remove the first, case-sensitive, literal occurrence of `m` from `s`
(no-op when absent; removal because the source always replaces with ""). -/
def replaceFirst (s m : List Char) : List Char :=
  match s with
  | [] => []
  | c :: r => if litStarts m s then r.drop (m.length - 1) else c :: replaceFirst r m

/-- JavaScript `trim`: strip whitespace from both ends. -/
def jsTrim (s : List Char) : List Char :=
  ((s.dropWhile jsSpaceChar).reverse.dropWhile jsSpaceChar).reverse

/-- Embeds `charAt(0).toUpperCase() + slice(1)` — uppercase the first character only. -/
def capFirst (s : List Char) : List Char :=
  match s with
  | [] => []
  | c :: r => jsUpper c :: r

/-- Embeds `padStart(2, "0")` on the decimal rendering of a number. -/
def pad2 (n : Nat) : String :=
  if n < 10 then "0" ++ toString n else toString n

/-- First `some` produced by `f` along a list, alternatives tried in order. -/
def firstSome {α β : Type} (f : α → Option β) : List α → Option β
  | [] => none
  | a :: r => match f a with | some b => some b | none => firstSome f r

/-- Whether the character at offset `n` of `s` is a word character (false past the end). -/
def wordAt (s : List Char) (n : Nat) : Bool :=
  match (s.drop n).head? with | some c => jsWordChar c | none => false

/-- Regex `\b` at offset `i` of `s`, where `prev` is the character just before `s`
(none at the very start of the scanned string). -/
def bnd (prev : Option Char) (s : List Char) (i : Nat) : Bool :=
  (if i = 0 then (match prev with | some c => jsWordChar c | none => false)
   else wordAt s (i - 1)) != wordAt s i

/-- Consume the case-insensitive literal `w` at offset `i`, returning the new offset. -/
def litCIAt (w : List Char) (s : List Char) (i : Nat) : Option Nat :=
  if ciStarts w (s.drop i) then some (i + w.length) else none

/-- Regex `\s+` at offset `i` (greedy; every use site is followed by a
non-whitespace requirement, so the maximal run is the only viable choice). -/
def sp1At (s : List Char) (i : Nat) : Option Nat :=
  let n := countWhile jsSpaceChar (s.drop i)
  if n = 0 then none else some (i + n)

/-- Succeed with offset `j` only if a `\b` holds there. -/
def endB (prev : Option Char) (s : List Char) : Option Nat → Option Nat
  | some j => if bnd prev s j then some j else none
  | none => none

/-- Matcher for `\b(every\s+W|A1|A2|...)\b` (patterns 1-4 of `recurringPatterns`
in `TaskModal.tsx`), alternatives tried in regex order. Returns the match length. -/
def pEveryWord (w : List Char) (alts : List (List Char)) (prev : Option Char)
    (s : List Char) : Option Nat :=
  if !bnd prev s 0 then none else
  match endB prev s (((litCIAt "every".data s 0).bind (sp1At s)).bind (litCIAt w s)) with
  | some j => some j
  | none => firstSome (fun a => endB prev s (litCIAt a s 0)) alts

/-- Consume `base(suf)?\b` at offset `i`: the optional suffix is greedy, and the
engine backtracks to the bare base when the trailing `\b` fails after the suffix. -/
def daySufB (prev : Option Char) (s : List Char) (i : Nat) (base suf : List Char) :
    Option Nat :=
  match litCIAt base s i with
  | none => none
  | some j =>
    match litCIAt suf s j with
    | some k =>
      if bnd prev s k then some k else if bnd prev s j then some j else none
    | none => if bnd prev s j then some j else none

/-- The weekday alternation `(mon(day)?|tue(sday)?|wed(nesday)?|thu(rsday)?|fri(day)?|sat(urday)?|sun(day)?)\b`
at offset `i`, alternatives in regex order. -/
def weekdayB (prev : Option Char) (s : List Char) (i : Nat) : Option Nat :=
  firstSome (fun bs => daySufB prev s i bs.1 bs.2)
    [("mon".data, "day".data), ("tue".data, "sday".data), ("wed".data, "nesday".data),
     ("thu".data, "rsday".data), ("fri".data, "day".data), ("sat".data, "urday".data),
     ("sun".data, "day".data)]

/-- Matcher for `\bevery\s+(weekday alternation)\b` (pattern 5). -/
def pEveryWeekday (prev : Option Char) (s : List Char) : Option Nat :=
  if !bnd prev s 0 then none else
  ((litCIAt "every".data s 0).bind (sp1At s)).bind (weekdayB prev s)

/-- Regex `\d+` at offset `i` (maximal run; always followed by a non-digit requirement). -/
def dig1At (s : List Char) (i : Nat) : Option Nat :=
  let n := countWhile jsDigit (s.drop i)
  if n = 0 then none else some (i + n)

/-- Matcher for `\bevery\s+\d+\s+hours?\b` (pattern 6, mapped to daily in the source). -/
def pEveryNHours (prev : Option Char) (s : List Char) : Option Nat :=
  if !bnd prev s 0 then none else
  match (((litCIAt "every".data s 0).bind (sp1At s)).bind (dig1At s)).bind (sp1At s) with
  | none => none
  | some i => daySufB prev s i "hour".data "s".data

/-- Matcher for `\bevery\s+(other|2nd|second)\s+(weekday alternation)\b` (pattern 7). -/
def pEveryOtherWeekday (prev : Option Char) (s : List Char) : Option Nat :=
  if !bnd prev s 0 then none else
  match (litCIAt "every".data s 0).bind (sp1At s) with
  | none => none
  | some i =>
    firstSome (fun w => ((litCIAt w s i).bind (sp1At s)).bind (weekdayB prev s))
      ["other".data, "2nd".data, "second".data]

/-- Matcher for `\b(W1|every\s+W2)\b` (patterns 8 and 9: weekdays/weekends). -/
def pPluralOrEvery (w1 w2 : List Char) (prev : Option Char) (s : List Char) : Option Nat :=
  if !bnd prev s 0 then none else
  match endB prev s (litCIAt w1 s 0) with
  | some j => some j
  | none => endB prev s (((litCIAt "every".data s 0).bind (sp1At s)).bind (litCIAt w2 s))

/-- Leftmost-match scan of matcher `m` over the suffix `s`; `prev` is the character
before `s` and `pre` the reversed prefix already passed. Returns
(text before the match, matched text, text after). -/
def scanFrom (m : Option Char → List Char → Option Nat) :
    Option Char → List Char → List Char → Option (List Char × List Char × List Char)
  | prev, pre, [] =>
    match m prev [] with
    | some _ => some (pre.reverse, [], [])
    | none => none
  | prev, pre, c :: r =>
    match m prev (c :: r) with
    | some n => some (pre.reverse, (c :: r).take n, (c :: r).drop n)
    | none => scanFrom m (some c) (c :: pre) r

/-- Embeds `String.prototype.match` for one of the embedded patterns: leftmost match. -/
def findPat (m : Option Char → List Char → Option Nat) (s : List Char) :
    Option (List Char × List Char × List Char) :=
  scanFrom m none [] s

/-- Result of the recurrence-pattern step: which pattern of `recurringPatterns`
fired (`idx`, 0-based), its mapped frequency, and the match split. -/
structure RecMatch where
  idx : Nat
  frequency : String
  before : List Char
  matched : List Char
  after : List Char
deriving DecidableEq, Repr

/-- The ordered pattern table of `TaskModal.tsx` lines 85-96: each entry is the
embedded matcher for the regex together with the frequency the source assigns.
Note the source maps `every N hours` to daily and `weekdays` to daily,
`weekends` to weekly (its stated best-effort coarsening). -/
def recurringPatterns : List ((Option Char → List Char → Option Nat) × String) :=
  [(pEveryWord "day".data ["daily".data], "daily"),
   (pEveryWord "week".data ["weekly".data], "weekly"),
   (pEveryWord "month".data ["monthly".data], "monthly"),
   (pEveryWord "year".data ["yearly".data, "annually".data], "yearly"),
   (pEveryWeekday, "weekly"),
   (pEveryNHours, "daily"),
   (pEveryOtherWeekday, "weekly"),
   (pPluralOrEvery "weekdays".data "weekday".data, "daily"),
   (pPluralOrEvery "weekends".data "weekend".data, "weekly")]

/-- Walk the pattern table in order; the first pattern that matches anywhere wins
(the source loop `break`s on the first `title.match(pattern)` success). -/
def findRecAux (s : List Char) :
    Nat → List ((Option Char → List Char → Option Nat) × String) → Option RecMatch
  | _, [] => none
  | i, pf :: r =>
    match findPat pf.1 s with
    | some (b, m, a) => some ⟨i, pf.2, b, m, a⟩
    | none => findRecAux s (i + 1) r

/-- The recurrence-pattern step of the extractor. -/
def findRecurrence (s : List Char) : Option RecMatch := findRecAux s 0 recurringPatterns

/-- Optional meridiem then `\b`: try `am`, then `pm` (case-insensitively, covering
the AM/PM alternatives), then the empty option, each followed by the `\b` test.
`some false` = am, `some true` = pm. -/
def merB (prev : Option Char) (s : List Char) (i : Nat) : Option (Nat × Option Bool) :=
  match endB prev s (litCIAt "am".data s i) with
  | some j => some (j, some false)
  | none =>
    match endB prev s (litCIAt "pm".data s i) with
    | some j => some (j, some true)
    | none => if bnd prev s i then some (i, none) else none

/-- Matcher for `\s*(am|pm|AM|PM)?\b` at offset `i`: the greedy `\s*` tries runs from longest
to shortest, each followed by the meridiem-or-empty alternatives. -/
def spMerGo (prev : Option Char) (s : List Char) (i : Nat) :
    Nat → Option (Nat × Option Bool)
  | 0 => merB prev s i
  | j + 1 =>
    match merB prev s (i + (j + 1)) with
    | some r => some r
    | none => spMerGo prev s i j

/-- Entry point for `\s*(am|pm|AM|PM)?\b` at offset `i`. -/
def spMerB (prev : Option Char) (s : List Char) (i : Nat) : Option (Nat × Option Bool) :=
  spMerGo prev s i (countWhile jsSpaceChar (s.drop i))

/-- The optional minutes group `(:\d{2})` at offset `i`: a colon followed by
exactly two digits; returns the new offset and the minutes value. -/
def colonMM (s : List Char) (i : Nat) : Option (Nat × Nat) :=
  match s.drop i with
  | ':' :: c1 :: c2 :: _ =>
    if jsDigit c1 && jsDigit c2 then some (i + 3, digitVal c1 * 10 + digitVal c2)
    else none
  | _ => none

/-- Matcher for `(:\d{2})?\s*(am|pm|AM|PM)?\b` at offset `j`, backtracking out of the minutes
group when the rest fails after it. Returns (end offset, minutes, meridiem);
minutes default to 0 when the group is absent (`parseInt` is only reached when
`timeMatch[3]` exists in the source, else 0). -/
def timeTail (prev : Option Char) (s : List Char) (j : Nat) :
    Option (Nat × Nat × Option Bool) :=
  match colonMM s j with
  | some (k, mm) =>
    (match spMerB prev s k with
     | some (e, mer) => some (e, mm, mer)
     | none =>
       match spMerB prev s j with
       | some (e, mer) => some (e, 0, mer)
       | none => none)
  | none =>
    match spMerB prev s j with
    | some (e, mer) => some (e, 0, mer)
    | none => none

/-- Matcher for `\d{1,2}` (greedy, backtracking from two digits to one) followed by
`timeTail`, at offset `i`. Returns (end offset, hours, minutes, meridiem). -/
def timeDigits (prev : Option Char) (s : List Char) (i : Nat) :
    Option (Nat × Nat × Nat × Option Bool) :=
  let run := countWhile jsDigit (s.drop i)
  if run = 0 then none
  else
    let d2 := if run ≥ 2 then 2 else 1
    match timeTail prev s (i + d2) with
    | some (e, mm, mer) => some (e, digitsVal ((s.drop i).take d2), mm, mer)
    | none =>
      if d2 = 2 then
        match timeTail prev s (i + 1) with
        | some (e, mm, mer) => some (e, digitsVal ((s.drop i).take 1), mm, mer)
        | none => none
      else none

/-- The full time regex `\b(at\s+)?(\d{1,2})(:\d{2})?\s*(am|pm|AM|PM)?\b` of
`TaskModal.tsx` line 113, anchored at the current position; the optional
`(at\s+)` group is greedy and the engine falls back to the empty group when
the rest fails after it. -/
def timeAt (prev : Option Char) (s : List Char) : Option (Nat × Nat × Nat × Option Bool) :=
  if !bnd prev s 0 then none else
  match (litCIAt "at".data s 0).bind (sp1At s) with
  | some i =>
    (match timeDigits prev s i with
     | some r => some r
     | none => timeDigits prev s 0)
  | none => timeDigits prev s 0

/-- A time-expression match: the split of the scanned text plus the parsed
hour/minute values and the optional meridiem (`some true` = pm). -/
structure TimeMatch where
  before : List Char
  matched : List Char
  after : List Char
  hours : Nat
  minutes : Nat
  mer : Option Bool
deriving DecidableEq, Repr

/-- Leftmost scan for the time regex. -/
def findTimeAux : Option Char → List Char → List Char → Option TimeMatch
  | prev, pre, [] =>
    match timeAt prev [] with
    | some (_, h, m, mer) => some ⟨pre.reverse, [], [], h, m, mer⟩
    | none => none
  | prev, pre, c :: r =>
    match timeAt prev (c :: r) with
    | some (n, h, m, mer) =>
      some ⟨pre.reverse, (c :: r).take n, (c :: r).drop n, h, m, mer⟩
    | none => findTimeAux (some c) (c :: pre) r

/-- Embeds `title.match(/\b(at\s+)?(\d{1,2})(:\d{2})?\s*(am|pm|AM|PM)?\b/i)`. -/
def findTime (s : List Char) : Option TimeMatch := findTimeAux none [] s

/-- The recurrence value the extractor builds (`detectedRecurrence` in
`TaskModal.tsx`): frequency, anchor time, and the matched pattern text.
There is no `interval` or `dayOfWeek` field; the source type is
`{ frequency: RecurrenceFrequency; time: string; originalText?: string }`. -/
structure RecurrenceDetected where
  frequency : String
  time : String
  originalText : String
deriving DecidableEq, Repr

/-- One parse result of the external chrono natural-language date parser:
the matched text span and the resolved timestamp (abstracted to a number). -/
structure ChronoResult where
  text : String
  date : Nat
deriving DecidableEq, Repr

/-- The extractor result: residual title, matched span, and the mutually
exclusive structured outcomes. -/
structure ExtractionResult where
  residualText : String
  matchedSpan : String
  recurrence : Option RecurrenceDetected
  absoluteDate : Option Nat
deriving DecidableEq, Repr

/-- The `kind` discriminator of the spec data model, derived from which
structured field is populated. -/
def ExtractionResult.kind (r : ExtractionResult) : String :=
  match r.recurrence, r.absoluteDate with
  | some _, _ => "recurrence"
  | none, some _ => "absoluteDate"
  | none, none => "none"

/-- Hour resolution of `TaskModal.tsx` lines 118-124: explicit pm adds 12
unless the hour is 12, explicit am maps 12 to 0, and a missing meridiem
defaults hours 1-11 to pm. -/
def resolveHours (h : Nat) (mer : Option Bool) : Nat :=
  match mer with
  | some pm => if pm then (if h ≠ 12 then h + 12 else h) else (if h = 12 then 0 else h)
  | none => if 1 ≤ h && h ≤ 11 then h + 12 else h

/-- Zero-padded `HH:MM` rendering (line 126). -/
def timeString (h m : Nat) : String := pad2 h ++ ":" ++ pad2 m

/-- Residual cleanup applied after each removal: `trim` then uppercase the
first character when non-empty (`capFirst` of the empty list is empty, which
coincides with the source guard `if (extractedTitle.length > 0)`). -/
def cleanResidual (s : List Char) : List Char := capFirst (jsTrim s)

/-- The exact string `handleSubmit` hands to the chrono parser on the
fall-through path: `customChrono.parse(title.trim())` (line 140) — note no
number-word expansion is applied on this path. -/
def chronoQuery (title : String) : String := String.mk (jsTrim title.data)

/-- The extractor of `TaskModal.tsx` `handleSubmit` lines 80-150. The chrono
parser is an oracle argument; it is consulted only when no recurrence
pattern matched. -/
def extract (chrono : String → Option ChronoResult) (title : String) : ExtractionResult :=
  match findRecurrence title.data with
  | some r =>
    let t1 := cleanResidual (replaceFirst title.data r.matched)
    match findTime title.data with
    | some tm =>
      let t2 := cleanResidual (replaceFirst t1 tm.matched)
      { residualText := String.mk t2, matchedSpan := String.mk r.matched,
        recurrence := some ⟨r.frequency,
          timeString (resolveHours tm.hours tm.mer) tm.minutes, String.mk r.matched⟩,
        absoluteDate := none }
    | none =>
      { residualText := String.mk t1, matchedSpan := String.mk r.matched,
        recurrence := some ⟨r.frequency, "09:00", String.mk r.matched⟩,
        absoluteDate := none }
  | none =>
    match chrono (chronoQuery title) with
    | some p =>
      { residualText := String.mk (cleanResidual (replaceFirst title.data p.text.data)),
        matchedSpan := p.text, recurrence := none, absoluteDate := some p.date }
    | none =>
      { residualText := chronoQuery title, matchedSpan := "",
        recurrence := none, absoluteDate := none }

/-- A chrono oracle that never matches (sufficient for inputs where a
recurrence pattern fires, since the oracle is then never consulted). -/
def noChrono : String → Option ChronoResult := fun _ => none

/-- The item fields assembled from an extraction result by `handleSubmit`
lines 168-201: `reminderDate` only when a date was extracted and no
recurrence was detected. -/
structure TaskFields where
  itemType : String
  reminderDate : Option Nat
  recurrence : Option RecurrenceDetected
deriving DecidableEq, Repr

/-- Embeds `handleSubmit` lines 168-177. -/
def assembleTask (r : ExtractionResult) : TaskFields :=
  let hasDate := r.absoluteDate.isSome || r.recurrence.isSome
  { itemType := if hasDate then "reminder" else "task",
    reminderDate := if r.absoluteDate.isSome && !r.recurrence.isSome then r.absoluteDate else none,
    recurrence := r.recurrence }

/-- The recurrence/reminder decision of the quick-add edge function
(`supabase/functions/quick-add/index.ts` lines 139-204): a client-provided
recurrence takes precedence and suppresses the reminder date entirely.
Returns the `(recurrence, reminder_date)` pair written to the item row. -/
def quickAddAssemble (clientRecurrence : Option RecurrenceDetected)
    (reminderDateIn : Option Nat) : Option RecurrenceDetected × Option Nat :=
  match clientRecurrence with
  | some r => (some r, none)
  | none =>
    match reminderDateIn with
    | some d => (none, some d)
    | none => (none, none)

/-- The number-word table of `expandNumberWords` (`TaskModal.tsx` lines
326-330), in object-key insertion order. -/
def numberWords : List (List Char × List Char) :=
  [("one".data, "1".data), ("two".data, "2".data), ("three".data, "3".data),
   ("four".data, "4".data), ("five".data, "5".data), ("six".data, "6".data),
   ("seven".data, "7".data), ("eight".data, "8".data), ("nine".data, "9".data),
   ("ten".data, "10".data), ("eleven".data, "11".data), ("twelve".data, "12".data)]

/-- Global case-insensitive replacement of the word-boundary-delimited word
`w` by `d` (one `text.replace(new RegExp(..., "gi"), number)` step): matches
are found left to right and non-overlapping in the original text, and the
scan resumes after each match. -/
def replAllFuel (w d : List Char) : Nat → Option Char → List Char → List Char
  | _, _, [] => []
  | 0, _, s => s
  | f + 1, prev, c :: r =>
    if bnd prev (c :: r) 0 && ciStarts w (c :: r) && bnd prev (c :: r) w.length then
      d ++ replAllFuel w d f ((c :: r).take w.length).getLast? (r.drop (w.length - 1))
    else c :: replAllFuel w d f (some c) r

/-- Entry point of the global replacement; the fuel (one unit per consumed
character) is the text length, which suffices because every step of
`replAllFuel` consumes at least one character for the non-empty words of the
table. -/
def replAllAux (w d : List Char) (prev : Option Char) (s : List Char) : List Char :=
  replAllFuel w d s.length prev s

/-- Embeds `expandNumberWords` of `TaskModal.tsx` lines 325-337: the twelve
replacements applied in sequence. -/
def expandNumberWords (s : String) : String :=
  String.mk (numberWords.foldl (fun acc wd => replAllAux wd.1 wd.2 none acc) s.data)

/-- The persisted recurrence-settings shape consumed by `formatRecurrence`
(`src/lib/formatRecurrence.ts` lines 3-11). -/
structure RecurrenceSettings where
  frequency : String
  time : String
  interval : Option Nat := none
  dayOfMonth : Option Nat := none
  dayOfWeek : Option Nat := none
  monthOfYear : Option Nat := none
  originalText : Option String := none
deriving DecidableEq, Repr

/-- JavaScript truthiness of an optional string: `undefined` and `""` are falsy. -/
def truthyStr : Option String → Option String
  | some t => if t = "" then none else some t
  | none => none

/-- JavaScript truthiness of an optional number: `undefined` and `0` are falsy. -/
def truthyNum : Option Nat → Option Nat
  | some n => if n = 0 then none else some n
  | none => none

/-- Embeds `interval || 1` (also turning an explicit 0 into 1, as `||` does). -/
def intervalOr1 (r : RecurrenceSettings) : Nat :=
  match truthyNum r.interval with | some n => n | none => 1

/-- Embeds `getOrdinalSuffix` of `formatRecurrence.ts` lines 19-27. -/
def getOrdinalSuffix (n : Nat) : String :=
  if 3 < n && n < 21 then "th"
  else match n % 10 with
    | 1 => "st"
    | 2 => "nd"
    | 3 => "rd"
    | _ => "th"

/-- Embeds `DAYS_OF_WEEK` of `formatRecurrence.ts` line 13. -/
def DAYS_OF_WEEK : List String :=
  ["Sunday", "Monday", "Tuesday", "Wednesday", "Thursday", "Friday", "Saturday"]

/-- Embeds `DAYS_OF_WEEK[day]` interpolated into a template string: an out-of-range
index yields `undefined`, which interpolates as the text "undefined". -/
def dayNameStr (n : Nat) : String := (DAYS_OF_WEEK.get? n).getD "undefined"

/-- Embeds `MONTHS` of `formatRecurrence.ts` line 14. -/
def MONTHS : List String :=
  ["January", "February", "March", "April", "May", "June", "July", "August",
   "September", "October", "November", "December"]

/-- Embeds `MONTHS[i]` with the same out-of-range interpolation as `dayNameStr`. -/
def monthNameStr (n : Nat) : String := (MONTHS.get? n).getD "undefined"

/-- The strict shape test `/^\d{1,2}:\d{2}$/` of `formatTimeDisplay`. -/
def timeShape : List Char → Bool
  | [h1, ':', m1, m2] => jsDigit h1 && jsDigit m1 && jsDigit m2
  | [h1, h2, ':', m1, m2] => jsDigit h1 && jsDigit h2 && jsDigit m1 && jsDigit m2
  | _ => false

/-- String-level wrapper for the shape test. -/
def timeShapeOk (t : String) : Bool := timeShape t.data

/-- Hour and minute values of a shape-valid `H:MM`/`HH:MM` string. -/
def timeHM (l : List Char) : Nat × Nat :=
  (digitsVal (l.takeWhile jsDigit), digitsVal ((l.dropWhile jsDigit).drop 1))

/-- Embeds `formatTimeDisplay` of `formatRecurrence.ts` lines 32-44. The branch
`format(new Date("2000-01-01T" + time), "h:mm a")` is modelled by the
ECMAScript date-time string grammar: `HH:MM` is a valid time exactly when
`HH ≤ 23 ∧ MM ≤ 59`, or `HH = 24 ∧ MM = 0` (which wraps to midnight);
an invalid date makes date-fns `format` throw, which the source catches and
turns into the same `9:00 AM` fallback. On a valid time date-fns `h:mm a`
prints the 12-hour clock with zero-padded minutes and uppercase AM/PM. -/
def formatTimeDisplay (time : String) : String :=
  if time = "" || !timeShapeOk time then "9:00 AM"
  else
    let hm := timeHM time.data
    if (hm.1 ≤ 23 && hm.2 ≤ 59) || (hm.1 = 24 && hm.2 = 0) then
      let h2 := if hm.1 = 24 then 0 else hm.1
      (toString (if h2 % 12 = 0 then 12 else h2 % 12)) ++ ":" ++ pad2 hm.2 ++ " " ++
        (if h2 ≥ 12 then "PM" else "AM")
    else "9:00 AM"

/-- Matcher for one `\bbase(suffix)?\b` weekday pattern of `extractDayOfWeek`. -/
def dayStartB (base suf : List Char) (prev : Option Char) (s : List Char) : Option Nat :=
  if !bnd prev s 0 then none else daySufB prev s 0 base suf

/-- Embeds `pattern.test(originalText)` for one weekday pattern. -/
def weekdayTest (base suf : List Char) (s : List Char) : Bool :=
  (findPat (dayStartB base suf) s).isSome

/-- Embeds `extractDayOfWeek` of `formatRecurrence.ts` lines 49-66: the seven
`\bxxx(rest)?\b` patterns tested in order sun..sat, first hit wins. -/
def extractDayOfWeek (t : String) : Option Nat :=
  firstSome (fun e => if weekdayTest e.1 e.2.1 t.data then some e.2.2 else none)
    [("sun".data, "day".data, 0), ("mon".data, "day".data, 1),
     ("tue".data, "sday".data, 2), ("wed".data, "nesday".data, 3),
     ("thu".data, "rsday".data, 4), ("fri".data, "day".data, 5),
     ("sat".data, "urday".data, 6)]

/-- Matcher for `\bevery\s+(other|2nd|second)\b` (`isBiweekly`). -/
def biweeklyAt (prev : Option Char) (s : List Char) : Option Nat :=
  if !bnd prev s 0 then none else
  match (litCIAt "every".data s 0).bind (sp1At s) with
  | none => none
  | some i =>
    firstSome (fun w => endB prev s (litCIAt w s i))
      ["other".data, "2nd".data, "second".data]

/-- Embeds `isBiweekly` of `formatRecurrence.ts` lines 71-73. -/
def isBiweekly (t : String) : Bool := (findPat biweeklyAt t.data).isSome

/-- Embeds `originalText.charAt(0).toUpperCase() + originalText.slice(1)`. -/
def capFirstStr (s : String) : String := String.mk (capFirst s.data)

/-- The weekly-branch day lookup of `formatRecurrence` lines 110-115:
`dayOfWeek` when defined (0 counts as defined), otherwise derived from a
truthy `originalText` via `extractDayOfWeek`. -/
def weeklyDay (r : RecurrenceSettings) : Option Nat :=
  match r.dayOfWeek with
  | some d => some d
  | none =>
    match truthyStr r.originalText with
    | some t => extractDayOfWeek t
    | none => none

/-- The `weekly` case of the formatter switch (lines 105-121): biweekly
detection from a truthy `originalText`, then optional day qualification. -/
def weeklyText (r : RecurrenceSettings) (timeDisplay : String) : String :=
  let biw := (match truthyStr r.originalText with
    | some t => isBiweekly t
    | none => false)
  let pfx : String := if biw then "Biweekly" else "Weekly"
  match weeklyDay r with
  | some d => pfx ++ " on " ++ dayNameStr d ++ " at " ++ timeDisplay
  | none => pfx ++ " at " ++ timeDisplay

/-- The `monthly` case of the formatter switch (lines 123-128). -/
def monthlyText (r : RecurrenceSettings) (timeDisplay : String) : String :=
  match truthyNum r.dayOfMonth with
  | some d => "Monthly on the " ++ toString d ++ getOrdinalSuffix d ++ " at " ++ timeDisplay
  | none => "Monthly at " ++ timeDisplay

/-- The `yearly` case of the formatter switch (lines 130-135). -/
def yearlyText (r : RecurrenceSettings) (timeDisplay : String) : String :=
  match truthyNum r.monthOfYear, truthyNum r.dayOfMonth with
  | some mo, some d =>
    "Yearly on " ++ monthNameStr (mo - 1) ++ " " ++ toString d ++ getOrdinalSuffix d
      ++ " at " ++ timeDisplay
  | some _, none => "Yearly at " ++ timeDisplay
  | none, _ => "Yearly at " ++ timeDisplay

/-- The `default` case of the formatter switch (lines 137-143). -/
def defaultText (r : RecurrenceSettings) (timeDisplay : String) : String :=
  match truthyStr r.originalText with
  | some t => capFirstStr t ++ " at " ++ timeDisplay
  | none => r.frequency ++ " at " ++ timeDisplay

/-- Embeds `formatRecurrence` of `formatRecurrence.ts` lines 86-145. -/
def formatRecurrence (r : RecurrenceSettings) : String :=
  let timeDisplay := formatTimeDisplay r.time
  if r.frequency = "minutely" then
    "Every " ++ toString (intervalOr1 r) ++ " minute" ++
      (if 1 < intervalOr1 r then "s" else "") ++ " starting at " ++ timeDisplay
  else if r.frequency = "hourly" then
    "Every " ++ (if intervalOr1 r = 1 then "hour" else toString (intervalOr1 r) ++ " hours")
      ++ " starting at " ++ timeDisplay
  else if r.frequency = "daily" then
    "Daily at " ++ timeDisplay
  else if r.frequency = "weekly" then
    weeklyText r timeDisplay
  else if r.frequency = "monthly" then
    monthlyText r timeDisplay
  else if r.frequency = "yearly" then
    yearlyText r timeDisplay
  else
    defaultText r timeDisplay

/-! ## General lemmas about the embedding -/

/-- Whichever entry of the pattern table fires, the reported frequency is the
one paired with that entry: `findRecAux` starting at index `i` reports an
index at least `i`, and the frequency stored at the reported offset. -/
theorem findRecAux_freq (s : List Char) :
    ∀ (l : List ((Option Char → List Char → Option Nat) × String)) (i : Nat) (r : RecMatch),
      findRecAux s i l = some r →
      i ≤ r.idx ∧ (l.get? (r.idx - i)).map Prod.snd = some r.frequency := by
  intro l
  induction l with
  | nil => intro i r h; simp [findRecAux] at h
  | cons pf rest ih =>
    intro i r h
    unfold findRecAux at h
    cases hp : findPat pf.1 s with
    | some bma =>
      obtain ⟨b, m, a⟩ := bma
      rw [hp] at h
      simp only [Option.some.injEq] at h
      subst h
      simp
    | none =>
      rw [hp] at h
      obtain ⟨h1, h2⟩ := ih (i + 1) r h
      refine ⟨by omega, ?_⟩
      have hidx : r.idx - i = (r.idx - (i + 1)) + 1 := by omega
      rw [hidx]
      simpa using h2

/-- The extractor on the recurrence path with no time expression. -/
theorem extract_rec_noTime (chrono : String → Option ChronoResult) (title : String)
    (r : RecMatch) (h1 : findRecurrence title.data = some r)
    (h2 : findTime title.data = none) :
    extract chrono title =
      ⟨String.mk (cleanResidual (replaceFirst title.data r.matched)),
       String.mk r.matched,
       some ⟨r.frequency, "09:00", String.mk r.matched⟩, none⟩ := by
  simp [extract, h1, h2]

/-- The extractor on the recurrence path with a time expression. -/
theorem extract_rec_time (chrono : String → Option ChronoResult) (title : String)
    (r : RecMatch) (tm : TimeMatch) (h1 : findRecurrence title.data = some r)
    (h2 : findTime title.data = some tm) :
    extract chrono title =
      ⟨String.mk (cleanResidual (replaceFirst
          (cleanResidual (replaceFirst title.data r.matched)) tm.matched)),
       String.mk r.matched,
       some ⟨r.frequency, timeString (resolveHours tm.hours tm.mer) tm.minutes,
         String.mk r.matched⟩, none⟩ := by
  simp [extract, h1, h2]

/-- The extractor on the absolute-date path. -/
theorem extract_chrono (chrono : String → Option ChronoResult) (title : String)
    (p : ChronoResult) (h1 : findRecurrence title.data = none)
    (h2 : chrono (chronoQuery title) = some p) :
    extract chrono title =
      ⟨String.mk (cleanResidual (replaceFirst title.data p.text.data)),
       p.text, none, some p.date⟩ := by
  simp [extract, h1, h2]

/-- The cleaned residual always starts with an upper-cased character. -/
theorem cleanResidual_head (x : List Char) (c : Char) (rest : List Char)
    (h : cleanResidual x = c :: rest) : ∃ c0, c = jsUpper c0 := by
  unfold cleanResidual capFirst at h
  cases hx : jsTrim x with
  | nil => rw [hx] at h; cases h
  | cons c0 t => rw [hx] at h; exact ⟨c0, by cases h; rfl⟩

/-- The weekly branch ends with the rendered time. -/
theorem weeklyText_tail (r : RecurrenceSettings) (td : String) :
    ∃ p, weeklyText r td = p ++ td := by
  cases hw : weeklyDay r <;> simp [weeklyText, hw] <;> exact ⟨_, rfl⟩

/-- The monthly branch ends with the rendered time. -/
theorem monthlyText_tail (r : RecurrenceSettings) (td : String) :
    ∃ p, monthlyText r td = p ++ td := by
  cases hd : truthyNum r.dayOfMonth <;> simp [monthlyText, hd] <;> exact ⟨_, rfl⟩

/-- The yearly branch ends with the rendered time. -/
theorem yearlyText_tail (r : RecurrenceSettings) (td : String) :
    ∃ p, yearlyText r td = p ++ td := by
  cases hm : truthyNum r.monthOfYear <;> cases hd : truthyNum r.dayOfMonth <;>
    simp [yearlyText, hm, hd] <;> exact ⟨_, rfl⟩

/-- The fallback branch ends with the rendered time. -/
theorem defaultText_tail (r : RecurrenceSettings) (td : String) :
    ∃ p, defaultText r td = p ++ td := by
  cases ho : truthyStr r.originalText <;> simp [defaultText, ho] <;> exact ⟨_, rfl⟩

/-- Every branch of the formatter ends with the rendered time. -/
theorem formatRecurrence_time_tail (r : RecurrenceSettings) :
    ∃ p, formatRecurrence r = p ++ formatTimeDisplay r.time := by
  unfold formatRecurrence
  dsimp only
  split_ifs <;>
    first
      | exact ⟨_, rfl⟩
      | exact weeklyText_tail r _
      | exact monthlyText_tail r _
      | exact yearlyText_tail r _
      | exact defaultText_tail r _

/-- A missing or shape-invalid time renders as the fixed fallback. -/
theorem formatTimeDisplay_bad (t : String) (h : t = "" ∨ timeShapeOk t = false) :
    formatTimeDisplay t = "9:00 AM" := by
  unfold formatTimeDisplay
  rcases h with h | h
  · subst h; rfl
  · simp [h]

/-! ## Claim theorems -/

/-- C1, counterexample: on the input "every 3 hours" the extractor returns
frequency daily, not hourly — the source pattern table deliberately maps
`every N hours` to daily. -/
theorem claim_C1_counterexample :
    (extract noChrono "every 3 hours").recurrence.map RecurrenceDetected.frequency
        = some "daily" ∧
      (extract noChrono "every 3 hours").recurrence.map RecurrenceDetected.frequency
        ≠ some "hourly" := by
  decide

/-- C1, amended: whenever the `every N hours` rule (index 5 of the pattern
table) is the one that fires, the extracted recurrence carries the coarser
frequency daily; no interval is recorded (the extractor result type has no
interval field at all). -/
theorem claim_C1_theorem (chrono : String → Option ChronoResult) (title : String)
    (r : RecMatch) (h1 : findRecurrence title.data = some r) (h2 : r.idx = 5) :
    (extract chrono title).recurrence.map RecurrenceDetected.frequency = some "daily" := by
  have hf := (findRecAux_freq title.data recurringPatterns 0 r h1).2
  rw [h2] at hf
  have hfr : r.frequency = "daily" := by
    simpa [recurringPatterns, List.get?] using hf.symm
  cases h3 : findTime title.data with
  | some tm => rw [extract_rec_time chrono title r tm h1 h3]; simp [hfr]
  | none => rw [extract_rec_noTime chrono title r h1 h3]; simp [hfr]

/-- C1, witness: the amended statement at the concrete input "every 3 hours". -/
theorem claim_C1_witness :
    findRecurrence "every 3 hours".data
        = some ⟨5, "daily", [], "every 3 hours".data, []⟩ ∧
      (extract noChrono "every 3 hours").recurrence.map RecurrenceDetected.frequency
        = some "daily" := by
  refine ⟨by decide, ?_⟩
  exact claim_C1_theorem noChrono "every 3 hours"
    ⟨5, "daily", [], "every 3 hours".data, []⟩ (by decide) rfl

/-- C2, counterexample: for "every tuesday at 6pm call mom" the residual text
is "At 6pm call mom", not "Call mom" — the time phrase survives because the
residual is capitalized before the case-sensitive time strip. -/
theorem claim_C2_counterexample :
    (extract noChrono "every tuesday at 6pm call mom").residualText
        = "At 6pm call mom" ∧
      (extract noChrono "every tuesday at 6pm call mom").residualText
        ≠ "Call mom" := by
  decide

/-- C2, amended: on "every tuesday at 6pm call mom" the extractor yields kind
recurrence with frequency weekly, time 18:00 and originalText "every
tuesday"; the residual is "At 6pm call mom" (time phrase not stripped), and
no dayOfWeek is produced at extraction time — the display-time
`extractDayOfWeek` recovers 2 (Tuesday) from the stored originalText. -/
theorem claim_C2_theorem :
    extract noChrono "every tuesday at 6pm call mom" =
        ⟨"At 6pm call mom", "every tuesday",
          some ⟨"weekly", "18:00", "every tuesday"⟩, none⟩ ∧
      extractDayOfWeek "every tuesday" = some 2 := by
  decide

/-- C3: the submission path hands the raw trimmed title to the
natural-language date parser without the number-word expansion the preview
path applies: for "call mom at three" no recurrence pattern matches, the
parser receives the text still containing "three", and the expansion the
claim describes would have produced "call mom at 3". -/
theorem claim_C3_theorem :
    findRecurrence "call mom at three".data = none ∧
      chronoQuery "call mom at three" = "call mom at three" ∧
      extract noChrono "call mom at three" = ⟨"call mom at three", "", none, none⟩ ∧
      expandNumberWords "call mom at three" = "call mom at 3" ∧
      chronoQuery "call mom at three" ≠ expandNumberWords "call mom at three" := by
  decide

/-- C4, counterexample: for "call mom daily daily" the extraction succeeds
(kind recurrence) yet the residual text "Call mom  daily" still contains the
matched span "daily" — only the first occurrence is removed. -/
theorem claim_C4_counterexample :
    (extract noChrono "call mom daily daily").kind = "recurrence" ∧
      containsSub (extract noChrono "call mom daily daily").residualText.data
        (extract noChrono "call mom daily daily").matchedSpan.data = true := by
  decide

/-- C4, amended: for every input with kind ≠ none the residual text is the
original text with the first literal occurrence of the matched span removed
(plus, on the recurrence path, the first occurrence of the matched time
expression still literally present after capitalization), trimmed, and its
first character upper-cased; consequently the first character of a non-empty
residual is the upper-casing of a character of the processed text. The
residual can, however, still contain the matched span (see the
counterexample). -/
theorem claim_C4_theorem :
    (∀ (chrono : String → Option ChronoResult) (title : String) (r : RecMatch),
        findRecurrence title.data = some r → findTime title.data = none →
        (extract chrono title).residualText.data
          = cleanResidual (replaceFirst title.data r.matched))
    ∧ (∀ (chrono : String → Option ChronoResult) (title : String) (r : RecMatch)
        (tm : TimeMatch),
        findRecurrence title.data = some r → findTime title.data = some tm →
        (extract chrono title).residualText.data
          = cleanResidual (replaceFirst
              (cleanResidual (replaceFirst title.data r.matched)) tm.matched))
    ∧ (∀ (chrono : String → Option ChronoResult) (title : String) (p : ChronoResult),
        findRecurrence title.data = none → chrono (chronoQuery title) = some p →
        (extract chrono title).residualText.data
          = cleanResidual (replaceFirst title.data p.text.data))
    ∧ (∀ (chrono : String → Option ChronoResult) (title : String) (c : Char)
        (rest : List Char),
        (extract chrono title).kind ≠ "none" →
        (extract chrono title).residualText.data = c :: rest →
        ∃ c0, c = jsUpper c0) := by
  refine ⟨?_, ?_, ?_, ?_⟩
  · intro chrono title r h1 h2
    rw [extract_rec_noTime chrono title r h1 h2]
  · intro chrono title r tm h1 h2
    rw [extract_rec_time chrono title r tm h1 h2]
  · intro chrono title p h1 h2
    rw [extract_chrono chrono title p h1 h2]
  · intro chrono title c rest hkind hres
    cases h1 : findRecurrence title.data with
    | some r =>
      cases h2 : findTime title.data with
      | some tm =>
        rw [extract_rec_time chrono title r tm h1 h2] at hres
        exact cleanResidual_head _ c rest hres
      | none =>
        rw [extract_rec_noTime chrono title r h1 h2] at hres
        exact cleanResidual_head _ c rest hres
    | none =>
      cases h3 : chrono (chronoQuery title) with
      | some p =>
        rw [extract_chrono chrono title p h1 h3] at hres
        exact cleanResidual_head _ c rest hres
      | none =>
        exact absurd (by simp [extract, h1, h3, ExtractionResult.kind]) hkind

/-- C4, witness: the amended statement at the concrete input "call mom daily". -/
theorem claim_C4_witness :
    (extract noChrono "call mom daily").residualText.data
        = cleanResidual (replaceFirst "call mom daily".data "daily".data) ∧
      (∃ c0, 'C' = jsUpper c0) := by
  constructor
  · exact claim_C4_theorem.1 noChrono "call mom daily"
      ⟨0, "daily", "call mom ".data, "daily".data, []⟩ (by decide) (by decide)
  · exact claim_C4_theorem.2.2.2 noChrono "call mom daily" 'C' "all mom".data
      (by decide) (by decide)

/-- C5: mutual exclusivity — the extractor never returns both a recurrence
and an absolute date, the task assembled by the modal never carries both a
recurrence and a reminder date, and the quick-add handler never writes both
`recurrence` and `reminder_date`. -/
theorem claim_C5_theorem :
    ∀ (chrono : String → Option ChronoResult) (title : String)
      (cr : Option RecurrenceDetected) (rd : Option Nat),
      ((extract chrono title).recurrence.isSome
          && (extract chrono title).absoluteDate.isSome) = false ∧
      ((assembleTask (extract chrono title)).recurrence.isSome
          && (assembleTask (extract chrono title)).reminderDate.isSome) = false ∧
      ((quickAddAssemble cr rd).1.isSome && (quickAddAssemble cr rd).2.isSome) = false := by
  intro chrono title cr rd
  have hcases : ∀ (e : ExtractionResult),
      (e.recurrence.isSome && e.absoluteDate.isSome) = false →
      ((assembleTask e).recurrence.isSome && (assembleTask e).reminderDate.isSome) = false := by
    intro e he
    cases hr : e.recurrence with
    | some x => simp [assembleTask, hr]
    | none => simp [assembleTask, hr]
  have hext : ((extract chrono title).recurrence.isSome
      && (extract chrono title).absoluteDate.isSome) = false := by
    cases h1 : findRecurrence title.data with
    | some r =>
      cases h2 : findTime title.data with
      | some tm => simp [extract, h1, h2]
      | none => simp [extract, h1, h2]
    | none =>
      cases h3 : chrono (chronoQuery title) with
      | some p => simp [extract, h1, h3]
      | none => simp [extract, h1, h3]
  refine ⟨hext, hcases _ hext, ?_⟩
  cases cr <;> cases rd <;> rfl

/-- C6: time resolution after a recurrence match — no time expression gives
the 09:00 default; a found time expression is resolved by the hour rules
(no meridiem with hour 1-11 shifts to pm, explicit am maps 12 to 0 and
leaves other hours, explicit pm adds 12 to hours 1-11, and hours 12 or
at least 13 without meridiem are kept), and rendered zero-padded by
`timeString`. -/
theorem claim_C6_theorem :
    (∀ (chrono : String → Option ChronoResult) (title : String) (r : RecMatch),
        findRecurrence title.data = some r → findTime title.data = none →
        (extract chrono title).recurrence
          = some ⟨r.frequency, "09:00", String.mk r.matched⟩)
    ∧ (∀ (chrono : String → Option ChronoResult) (title : String) (r : RecMatch)
        (tm : TimeMatch),
        findRecurrence title.data = some r → findTime title.data = some tm →
        (extract chrono title).recurrence
          = some ⟨r.frequency,
              timeString (resolveHours tm.hours tm.mer) tm.minutes, String.mk r.matched⟩)
    ∧ (∀ h : Nat, 1 ≤ h → h ≤ 11 → resolveHours h none = h + 12)
    ∧ (∀ h : Nat, h ≠ 12 → resolveHours h (some false) = h)
    ∧ (resolveHours 12 (some false) = 0)
    ∧ (∀ h : Nat, 1 ≤ h → h ≤ 11 → resolveHours h (some true) = h + 12)
    ∧ (∀ h : Nat, h = 12 ∨ 13 ≤ h → resolveHours h none = h) := by
  refine ⟨?_, ?_, ?_, ?_, rfl, ?_, ?_⟩
  · intro chrono title r h1 h2
    rw [extract_rec_noTime chrono title r h1 h2]
  · intro chrono title r tm h1 h2
    rw [extract_rec_time chrono title r tm h1 h2]
  · intro h h1 h2
    simp [resolveHours, h1, h2]
  · intro h h1
    simp [resolveHours, h1]
  · intro h h1 h2
    have hne : h ≠ 12 := by omega
    simp [resolveHours, hne]
  · intro h h1
    rcases h1 with h1 | h1 <;> simp [resolveHours] <;> omega

/-- C6, witness: the time rules at concrete inputs — "every day" has no time
expression and defaults to 09:00; hour 6 without meridiem resolves to 18,
and 12am resolves to 0. -/
theorem claim_C6_witness :
    (extract noChrono "every day").recurrence = some ⟨"daily", "09:00", "every day"⟩ ∧
      resolveHours 6 none = 18 ∧ resolveHours 12 (some false) = 0 := by
  refine ⟨?_, claim_C6_theorem.2.2.1 6 (by decide) (by decide),
    claim_C6_theorem.2.2.2.2.1⟩
  have h := claim_C6_theorem.1 noChrono "every day"
    ⟨0, "daily", [], "every day".data, []⟩ (by decide) (by decide)
  exact h.trans (by decide)

/-- C7: the formatter is total by construction (it is a Lean function into
String), and a descriptor whose time is empty or fails the strict shape
check renders with the fixed fallback 9:00 AM. -/
theorem claim_C7_theorem (r : RecurrenceSettings)
    (h : r.time = "" ∨ timeShapeOk r.time = false) :
    ∃ p, formatRecurrence r = p ++ "9:00 AM" := by
  obtain ⟨p, hp⟩ := formatRecurrence_time_tail r
  exact ⟨p, by rw [hp, formatTimeDisplay_bad r.time h]⟩

/-- C7, witness: a malformed time on a daily descriptor. -/
theorem claim_C7_witness :
    timeShapeOk "soon" = false ∧
      ∃ p, formatRecurrence ⟨"daily", "soon", none, none, none, none, none⟩
        = p ++ "9:00 AM" :=
  ⟨by decide,
   claim_C7_theorem ⟨"daily", "soon", none, none, none, none, none⟩ (Or.inr (by decide))⟩

set_option maxHeartbeats 8000000 in
/-- C8: time round-trip — every valid 24-hour HH:MM, rendered to the 12-hour
display by the formatter and re-parsed with the extractor time-expression
rules, recovers the same hour and minute pair. -/
theorem claim_C8_theorem :
    ∀ (h : Fin 24) (m : Fin 60),
      (findTime (formatTimeDisplay (pad2 h.val ++ ":" ++ pad2 m.val)).data).map
          (fun tm => (resolveHours tm.hours tm.mer, tm.minutes))
        = some (h.val, m.val) := by
  decide

/-- C9: the weekly branch — prefix Biweekly exactly when the truthy
originalText matches the every-other pattern, day qualification from
dayOfWeek or from a weekday name found in originalText, and the concrete
scenario formats to "Biweekly on Tuesday at 9:00 AM". -/
theorem claim_C9_theorem :
    (∀ r : RecurrenceSettings, r.frequency = "weekly" →
        formatRecurrence r = weeklyText r (formatTimeDisplay r.time))
    ∧ (∀ (r : RecurrenceSettings) (td : String), weeklyText r td =
        match weeklyDay r with
        | some d =>
          (if (truthyStr r.originalText).elim false isBiweekly then "Biweekly" else "Weekly")
            ++ " on " ++ dayNameStr d ++ " at " ++ td
        | none =>
          (if (truthyStr r.originalText).elim false isBiweekly then "Biweekly" else "Weekly")
            ++ " at " ++ td)
    ∧ formatRecurrence ⟨"weekly", "", none, none, some 2, none, some "every other tuesday"⟩
        = "Biweekly on Tuesday at 9:00 AM" := by
  refine ⟨?_, ?_, by decide⟩
  · intro r h
    simp [formatRecurrence, h]
  · intro r td
    cases ho : truthyStr r.originalText <;> cases hw : weeklyDay r <;>
      simp [weeklyText, ho, hw]

/-- C9, witness: the weekly-branch characterization applied to the scenario
descriptor (with an explicit interval to keep the statement distinct). -/
theorem claim_C9_witness :
    formatRecurrence ⟨"weekly", "", some 1, none, some 2, none, some "every other tuesday"⟩
      = "Biweekly on Tuesday at 9:00 AM" := by
  have h := claim_C9_theorem.1
    ⟨"weekly", "", some 1, none, some 2, none, some "every other tuesday"⟩ rfl
  rw [h]
  decide

/-- C10: after the recurrence match on "every 3 hours" the time search picks
up the interval digit 3 (no meridiem, no "at"), pm-defaults it, and stores
15:00 instead of the 09:00 no-time default. -/
theorem claim_C10_theorem :
    findTime "every 3 hours".data
        = some ⟨"every ".data, "3 ".data, "hours".data, 3, 0, none⟩ ∧
      (extract noChrono "every 3 hours").recurrence.map RecurrenceDetected.time
        = some "15:00" ∧
      (extract noChrono "every 3 hours").recurrence.map RecurrenceDetected.time
        ≠ some "09:00" := by
  decide

end FlowTask
